import Mathlib

/-!
# Verification of the nyrazarii product-catalog service and client

Shallow embedding of:

* `src/api/products.js` — the serverless catalog handler backed by a blob store
  (`readProductsFromBlob`, `handler` with its GET/POST/PUT/DELETE branches);
* `src/src/contexts/ProductContext.tsx` — the client-side catalog state
  (`searchProducts`, `updateProduct`).

JavaScript runtime values are embedded as the inductive `JVal`; JS numbers are
`JNum` (a rational for every finite value, plus `NaN` and the two infinities —
the claims under verification involve no floating-point rounding).  The blob
store is modelled by `BlobState`, one constructor per distinct way the read in
`readProductsFromBlob` can go.  The handler returns, besides the HTTP status
and JSON body, the snapshot passed to `writeProductsToBlob` (`none` when no
write happens), so "performs no write" is directly observable.
-/

namespace Nyrazarii

/-- A JavaScript number: a finite value (exactly representable here as a
rational; every IEEE double is one), `NaN`, or an infinity. -/
inductive JNum where
  | finite (q : ℚ)
  | nan
  | inf
  | neginf
deriving DecidableEq

/-- A JavaScript/JSON runtime value.  Objects are ordered field lists; a later
binding of the same key shadows an earlier one, matching object-spread
semantics (values produced by `JSON.parse` have unique keys). -/
inductive JVal where
  | undefined
  | null
  | bool (b : Bool)
  | num (n : JNum)
  | str (s : String)
  | arr (elems : List JVal)
  | obj (fields : List (String × JVal))

/-- JS truthiness: everything is truthy except `undefined`, `null`, `false`,
`0`, `NaN` and the empty string. -/
def truthy : JVal → Bool
  | .undefined => false
  | .null => false
  | .bool b => b
  | .num (.finite q) => !(q == 0)
  | .num .nan => false
  | .num .inf => true
  | .num .neginf => true
  | .str s => !(s == "")
  | .arr _ => true
  | .obj _ => true

/-- The value bound to key `k` in a field list, when any: the LAST binding
wins, matching JS object semantics under spread/literal duplication. -/
def lookupLast (fs : List (String × JVal)) (k : String) : Option JVal :=
  ((fs.filter (fun kv => kv.1 == k)).getLast?).map Prod.snd

/-- JS property access `v[k]` for a string key `k`, as used by the handler
(`body.name`, `p.id`, …): a field of an object, `undefined` otherwise.  The
keys the handler reads are never array/string index properties. -/
def getField (v : JVal) (k : String) : JVal :=
  match v with
  | .obj fs => (lookupLast fs k).getD .undefined
  | _ => .undefined

/-- `a || b`. -/
def jsOr (a b : JVal) : JVal := if truthy a then a else b

/-- `typeof v === 'object'` — true for `null`, arrays and plain objects. -/
def typeofIsObject : JVal → Bool
  | .null => true
  | .arr _ => true
  | .obj _ => true
  | _ => false

/-- `Array.isArray`. -/
def isArray : JVal → Bool
  | .arr _ => true
  | _ => false

/-- `Number.isFinite` — no coercion: true only for an actual finite number. -/
def isFiniteNumber : JVal → Bool
  | .num (.finite _) => true
  | _ => false

/-- Strict equality `a === b` between values obtained from independent JSON
parses (as in the handler, where one side comes from the request body and the
other from the fetched blob): value comparison for primitives, `NaN ≠ NaN`,
and reference comparison — hence `false` — for objects and arrays, which are
never aliased across the two parses. -/
def jStrictEq : JVal → JVal → Bool
  | .undefined, .undefined => true
  | .null, .null => true
  | .bool a, .bool b => a == b
  | .num (.finite p), .num (.finite q) => p == q
  | .num .inf, .num .inf => true
  | .num .neginf, .num .neginf => true
  | .str a, .str b => a == b
  | _, _ => false

/-- The enumerable own properties a value contributes under object spread
`{...v}`: an object's fields, an array's or string's index properties, nothing
for the other primitives. -/
def fieldsOf : JVal → List (String × JVal)
  | .obj fs => fs
  | .arr xs => xs.enum.map (fun iv => (Nat.repr iv.1, iv.2))
  | .str s => s.toList.enum.map (fun ic => (Nat.repr ic.1, .str (String.singleton ic.2)))
  | _ => []

/-- Object spread `{...a, ...b}`: the fields of `a` then those of `b`; with
last-binding-wins lookup this is exactly shallow overwrite by `b`. -/
def jSpread (a b : JVal) : JVal := .obj (fieldsOf a ++ fieldsOf b)

/-- Decimal rendering of a rational with a finite decimal expansion (every
IEEE double has one).  Values whose expansion does not terminate within 1100
digits — unreachable for doubles — fall back to a fraction rendering, and the
exponential form JS uses for extreme magnitudes is not modelled; no claim
depends on either. -/
def ratDecimalString (q : ℚ) : String :=
  let sign := if q < 0 then "-" else ""
  let a := |q|
  match (List.range 1101).find? (fun e => (a * (10 : ℚ) ^ e).den == 1) with
  | some e =>
    let ds := (Nat.repr (a * (10 : ℚ) ^ e).num.natAbs).toList
    if e == 0 then sign ++ ds.asString
    else
      let ds := if ds.length ≤ e then List.replicate (e + 1 - ds.length) '0' ++ ds else ds
      sign ++ (ds.take (ds.length - e)).asString ++ "." ++ (ds.drop (ds.length - e)).asString
  | none => sign ++ Nat.repr a.num.natAbs ++ "/" ++ Nat.repr a.den

/-- JS number-to-string. -/
def numToString : JNum → String
  | .nan => "NaN"
  | .inf => "Infinity"
  | .neginf => "-Infinity"
  | .finite q => ratDecimalString q

mutual

/-- The JS `String(v)` coercion, as used for `category` and `description`. -/
def jsToString : JVal → String
  | .undefined => "undefined"
  | .null => "null"
  | .bool b => if b then "true" else "false"
  | .num n => numToString n
  | .str s => s
  | .arr xs => jsArrayToString xs
  | .obj _ => "[object Object]"

/-- `Array.prototype.toString`: elements joined with commas, `null` and
`undefined` elements contributing the empty string. -/
def jsArrayToString : List JVal → String
  | [] => ""
  | v :: vs =>
    (match v with
     | .undefined => ""
     | .null => ""
     | w => jsToString w)
    ++ (match vs with | [] => "" | _ => ",") ++ jsArrayToString vs

end

/-- JS whitespace stripped by string-to-number coercion. -/
def jsWhitespace (c : Char) : Bool :=
  c == ' ' || c == '\t' || c == '\n' || c == '\r' || c == '\x0b' || c == '\x0c' || c == '\xa0'

/-- Value of one digit character in the given base, if it is one. -/
def digitVal (base : Nat) (c : Char) : Option Nat :=
  let v :=
    if '0' ≤ c ∧ c ≤ '9' then some (c.toNat - '0'.toNat)
    else if 'a' ≤ c ∧ c ≤ 'f' then some (c.toNat - 'a'.toNat + 10)
    else if 'A' ≤ c ∧ c ≤ 'F' then some (c.toNat - 'A'.toNat + 10)
    else none
  match v with
  | some d => if d < base then some d else none
  | none => none

/-- Reads a non-empty all-digit run in the given base; `none` otherwise. -/
def digitsToNat (base : Nat) (cs : List Char) : Option Nat :=
  if cs.isEmpty then none
  else cs.foldl (fun acc c =>
    match acc, digitVal base c with
    | some a, some d => some (a * base + d)
    | _, _ => none) (some 0)

/-- Value of a run of decimal digit characters. -/
def natOfDigits (l : List Char) : Nat :=
  l.foldl (fun a c => a * 10 + (c.toNat - 48)) 0

/-- Parses an unsigned JS decimal literal `digits [. digits] [(e|E) [±] digits]`
(at least one digit before or after the point); `none` on any leftover. -/
def parseDecimal (cs : List Char) : Option ℚ :=
  let intD := cs.takeWhile (fun c => c.isDigit)
  let rest := cs.dropWhile (fun c => c.isDigit)
  let fracD :=
    match rest with
    | '.' :: r => r.takeWhile (fun c => c.isDigit)
    | _ => []
  let rest2 :=
    match rest with
    | '.' :: r => r.dropWhile (fun c => c.isDigit)
    | _ => rest
  if intD.isEmpty && fracD.isEmpty then none
  else
    let mant : ℚ := (natOfDigits intD : ℚ) + (natOfDigits fracD : ℚ) / (10 : ℚ) ^ fracD.length
    match rest2 with
    | [] => some mant
    | e :: r =>
      if e == 'e' || e == 'E' then
        let esign : ℤ := match r with | '-' :: _ => -1 | _ => 1
        let r2 := match r with | '+' :: t => t | '-' :: t => t | t => t
        if r2.isEmpty || !(r2.all (fun c => c.isDigit)) then none
        else some (mant * (10 : ℚ) ^ (esign * (natOfDigits r2 : ℤ)))
      else none

/-- String-to-number on an already-trimmed character list. -/
def strToNumberTrimmed (cs : List Char) : JNum :=
  match cs with
  | [] => .finite 0
  | '0' :: x :: r =>
    if x == 'x' || x == 'X' then
      match digitsToNat 16 r with | some n => .finite n | none => .nan
    else if x == 'o' || x == 'O' then
      match digitsToNat 8 r with | some n => .finite n | none => .nan
    else if x == 'b' || x == 'B' then
      match digitsToNat 2 r with | some n => .finite n | none => .nan
    else
      match parseDecimal cs with | some q => .finite q | none => .nan
  | _ =>
    let sgn : ℚ := match cs with | '-' :: _ => -1 | _ => 1
    let cs2 := match cs with | '+' :: t => t | '-' :: t => t | t => t
    if cs2 = "Infinity".toList then (if sgn = 1 then .inf else .neginf)
    else match parseDecimal cs2 with
      | some q => .finite (sgn * q)
      | none => .nan

/-- The JS string-to-number coercion: trim whitespace, empty means `0`,
radix-prefixed or signed decimal literal, otherwise `NaN`. -/
def strToNumber (s : String) : JNum :=
  strToNumberTrimmed (((s.toList.dropWhile jsWhitespace).reverse.dropWhile jsWhitespace).reverse)

/-- The JS `Number(v)` coercion.  Arrays convert via their joined string
(`ToPrimitive`), plain objects to `NaN`. -/
def toNumber : JVal → JNum
  | .undefined => .nan
  | .null => .finite 0
  | .bool b => .finite (if b then 1 else 0)
  | .num n => n
  | .str s => strToNumber s
  | .arr xs => strToNumber (jsArrayToString xs)
  | .obj _ => .nan

/-- The ways the read in `readProductsFromBlob` can go, one constructor per
exit path of the source: `list()` throws; no blob with pathname
`products.json`; `fetch` succeeds but `res.ok` is false; `fetch` or
`res.json()` throws; or the blob body parses to the JSON value `v`. -/
inductive BlobState where
  | listFailed
  | noMatch
  | notOk
  | bodyNotJson
  | stored (v : JVal)

/-- `readProductsFromBlob`: every failure path yields the empty catalog, and a
stored body that is not a JSON array also yields the empty catalog
(`Array.isArray(data) ? data : []`). -/
def readProductsFromBlob : BlobState → List JVal
  | .listFailed => []
  | .noMatch => []
  | .notOk => []
  | .bodyNotJson => []
  | .stored (.arr xs) => xs
  | .stored _ => []

/-- What one handler invocation produces: the HTTP status, the JSON response
body, and the snapshot passed to `writeProductsToBlob` (`none` when the
request performs no write). -/
structure HandlerResult where
  status : Nat
  body : JVal
  written : Option (List JVal)

/-- `{ error: msg }`. -/
def errorBody (msg : String) : JVal := .obj [("error", .str msg)]

/-- The `newProduct` object literal built in the POST branch; `now` models
`Date.now()`, so the id is `Date.now().toString()`. -/
def mkNewProduct (body : JVal) (now : Nat) : JVal :=
  .obj
    [ ("id", .str (Nat.repr now)),
      ("name", getField body "name"),
      ("price", .num (toNumber (getField body "price"))),
      ("offerPrice",
        if truthy (getField body "offerPrice") then .num (toNumber (getField body "offerPrice"))
        else .undefined),
      ("images",
        if isArray (getField body "images") then getField body "images" else .arr []),
      ("category", .str (jsToString (getField body "category"))),
      ("description", .str (jsToString (jsOr (getField body "description") (.str "")))),
      ("stock",
        if isFiniteNumber (getField body "stock") then .num (toNumber (getField body "stock"))
        else .num (.finite 0)) ]

/-- The request handler of `src/api/products.js`.  `method` and `reqBody`
are the request, `store` the current blob-store state, `now` the value of
`Date.now()`.  The catch-all 500 branch of the source is unreachable here
because the model's store operations do not throw (read failures are already
absorbed inside `readProductsFromBlob`, and the write is modelled by the
`written` field). -/
def handler (method : String) (reqBody : JVal) (store : BlobState) (now : Nat) : HandlerResult :=
  if method = "OPTIONS" then ⟨200, .undefined, none⟩
  else if method = "GET" then
    ⟨200, .arr (readProductsFromBlob store), none⟩
  else
    let products := readProductsFromBlob store
    if method = "POST" then
      let body := jsOr reqBody (.obj [])
      if !truthy (getField body "name") || !truthy (getField body "price")
          || !truthy (getField body "category") then
        ⟨400, errorBody "Missing required fields", none⟩
      else
        let newProduct := mkNewProduct body now
        ⟨201, newProduct, some (products ++ [newProduct])⟩
    else if method = "PUT" then
      let body := jsOr reqBody (.obj [])
      let id := getField body "id"
      let updates := getField body "updates"
      if !truthy id || !typeofIsObject updates then
        ⟨400, errorBody "id and updates are required", none⟩
      else
        match products.findIdx? (fun p => jStrictEq (getField p "id") id) with
        | none => ⟨404, errorBody "Not found", none⟩
        | some idx =>
          let updated := jSpread (products.getD idx .undefined) updates
          let next := products.set idx updated
          ⟨200, updated, some next⟩
    else if method = "DELETE" then
      let id := getField (jsOr reqBody (.obj [])) "id"
      if !truthy id then ⟨400, errorBody "id is required", none⟩
      else
        let next := products.filter (fun p => !jStrictEq (getField p "id") id)
        ⟨200, .obj [("ok", .bool true)], some next⟩
    else ⟨405, errorBody "Method Not Allowed", none⟩

/-- Modelled from the spec: the `Product` interface is declared in
`src/contexts/CartContext.tsx`, which is not part of the provided sources;
its fields follow the spec's Data Model (§3): `id` opaque string, `name`
string, `price` numeric, `offerPrice` optional numeric, `images` sequence of
strings, `category` string, `description` string, `stock` numeric. -/
structure Product where
  id : String
  name : String
  price : ℚ
  offerPrice : Option ℚ
  images : List String
  category : String
  description : String
  stock : ℚ
deriving DecidableEq

/-- A `Partial<Product>` as passed to `updateProduct`: each field either
absent (`none`) or supplying a new value. -/
structure ProductUpdate where
  id : Option String
  name : Option String
  price : Option ℚ
  offerPrice : Option (Option ℚ)
  images : Option (List String)
  category : Option String
  description : Option String
  stock : Option ℚ
deriving DecidableEq

/-- The object spread `{ ...p, ...updates }` at type `Product`: every field
present in `updates` overwrites, every absent field keeps `p`'s value. -/
def applyUpdates (p : Product) (u : ProductUpdate) : Product :=
  ⟨u.id.getD p.id, u.name.getD p.name, u.price.getD p.price,
   u.offerPrice.getD p.offerPrice, u.images.getD p.images,
   u.category.getD p.category, u.description.getD p.description,
   u.stock.getD p.stock⟩

/-- The local-state update applied by the client's `updateProduct`:
`prev.map(p => (p.id === id ? { ...p, ...updates } : p))`.  (The subsequent
fire-and-forget PUT request does not touch the local list.) -/
def updateProduct (id : String) (updates : ProductUpdate) (products : List Product) :
    List Product :=
  products.map (fun p => if p.id == id then applyUpdates p updates else p)

/-- `String.prototype.toLowerCase`: per-character lowercasing (ASCII mapping
via `Char.toLower`, matching JS for the data in scope). -/
def jsToLowerCase (s : String) : String := ⟨s.data.map Char.toLower⟩

/-- `String.prototype.includes`: the needle occurs contiguously in the
haystack. -/
def jsIncludes (s sub : String) : Bool := decide (sub.toList <:+: s.toList)

/-- The client's `searchProducts`: keep the products whose lowercased `name`,
`description` or `category` contains the lowercased query. -/
def searchProducts (products : List Product) (query : String) : List Product :=
  let lower := jsToLowerCase query
  products.filter (fun product =>
    jsIncludes (jsToLowerCase product.name) lower
    || jsIncludes (jsToLowerCase product.description) lower
    || jsIncludes (jsToLowerCase product.category) lower)

/-! ## Helper lemmas -/

/-- `Nat.toDigitsCore` never shortens its accumulator. -/
theorem toDigitsCore_length_le (b : Nat) :
    ∀ (f n : Nat) (l : List Char), l.length ≤ (Nat.toDigitsCore b f n l).length := by
  intro f
  induction f with
  | zero => intro n l; exact Nat.le_refl _
  | succ f ih =>
    intro n l
    simp only [Nat.toDigitsCore]
    split
    · simp
    · have h := ih (n / b) (Nat.digitChar (n % b) :: l)
      simp only [List.length_cons] at h
      omega

/-- The decimal representation of a natural number is non-empty. -/
theorem repr_length_pos (n : Nat) : 0 < (Nat.repr n).length := by
  show 0 < (Nat.toDigits 10 n).asString.length
  have : 0 < (Nat.toDigits 10 n).length := by
    show 0 < (Nat.toDigitsCore 10 (n + 1) n []).length
    simp only [Nat.toDigitsCore]
    split
    · simp
    · have h := toDigitsCore_length_le 10 n (n / 10) [Nat.digitChar (n % 10)]
      simp only [List.length_cons, List.length_nil] at h
      omega
  exact this

/-- The decimal representation of a natural number is never the empty string. -/
theorem repr_ne_empty (n : Nat) : Nat.repr n ≠ "" := by
  intro h
  have hp := repr_length_pos n
  rw [h] at hp
  simp at hp

/-- Strict equality against `undefined` holds only for `undefined`. -/
theorem jStrictEq_undef_left {v : JVal} (h : jStrictEq .undefined v = true) : v = .undefined := by
  cases v with
  | undefined => rfl
  | num n => cases n <;> simp [jStrictEq] at h
  | _ => simp [jStrictEq] at h

/-- A record located by `findIndex(p => p.id === id)` with a truthy `id` is
necessarily an object: on every other value the `id` access yields
`undefined`, which is strictly equal only to `undefined`, a falsy value. -/
theorem found_record_isObj {p idv : JVal} (hid : truthy idv = true)
    (h : jStrictEq (getField p "id") idv = true) : ∃ fs, p = JVal.obj fs := by
  cases p with
  | obj fs => exact ⟨fs, rfl⟩
  | _ =>
    have : idv = .undefined := jStrictEq_undef_left (by simpa [getField] using h)
    subst this
    simp [truthy] at hid

/-- Looking up a key that the right part of a concatenation binds resolves in
that right part. -/
theorem lookupLast_append_right {a b : List (String × JVal)} {k : String}
    (h : ∃ kv ∈ b, kv.1 = k) : lookupLast (a ++ b) k = lookupLast b k := by
  unfold lookupLast
  rw [List.filter_append, List.getLast?_append]
  obtain ⟨kv, hm, hk⟩ := h
  have hne : b.filter (fun kv => kv.1 == k) ≠ [] := by
    intro hnil
    rw [List.filter_eq_nil_iff] at hnil
    exact hnil kv hm (by simp [hk])
  cases hlast : (b.filter (fun kv => kv.1 == k)).getLast? with
  | none => exact absurd (List.getLast?_eq_none_iff.mp hlast) hne
  | some x => simp

/-- Looking up a key that the right part of a concatenation does not bind
resolves in the left part. -/
theorem lookupLast_append_left {a b : List (String × JVal)} {k : String}
    (h : k ∉ b.map Prod.fst) : lookupLast (a ++ b) k = lookupLast a k := by
  unfold lookupLast
  rw [List.filter_append]
  have hb : b.filter (fun kv => kv.1 == k) = [] := by
    rw [List.filter_eq_nil_iff]
    intro kv hm hk
    exact h (List.mem_map.mpr ⟨kv, hm, by simpa using hk⟩)
  rw [hb, List.append_nil]

/-- In `{...p, ...u}`, a key that `u` binds takes `u`'s (last) binding. -/
theorem getField_jSpread_mem {p u : JVal} {k : String}
    (h : k ∈ (fieldsOf u).map Prod.fst) :
    getField (jSpread p u) k = (lookupLast (fieldsOf u) k).getD .undefined := by
  obtain ⟨kv, hm, hk⟩ := List.mem_map.mp h
  simp [jSpread, getField, lookupLast_append_right ⟨kv, hm, hk⟩]

/-- In `{...p, ...u}` with `p` an object, a key that `u` does not bind keeps
`p`'s value. -/
theorem getField_jSpread_not_mem {fs : List (String × JVal)} {u : JVal} {k : String}
    (h : k ∉ (fieldsOf u).map Prod.fst) :
    getField (jSpread (.obj fs) u) k = getField (.obj fs) k := by
  show (lookupLast (fs ++ fieldsOf u) k).getD .undefined = (lookupLast fs k).getD .undefined
  rw [lookupLast_append_left h]

/-- The POST branch on a body passing the required-field check: create,
append, write, 201. -/
theorem handler_post_valid (reqBody : JVal) (store : BlobState) (now : Nat)
    (h1 : truthy (getField (jsOr reqBody (.obj [])) "name") = true)
    (h2 : truthy (getField (jsOr reqBody (.obj [])) "price") = true)
    (h3 : truthy (getField (jsOr reqBody (.obj [])) "category") = true) :
    handler "POST" reqBody store now =
      ⟨201, mkNewProduct (jsOr reqBody (.obj [])) now,
        some (readProductsFromBlob store ++ [mkNewProduct (jsOr reqBody (.obj [])) now])⟩ := by
  simp [handler, h1, h2, h3]

/-- The PUT branch on a valid body whose `id` is found at index `i`: merge,
write the updated snapshot, 200. -/
theorem handler_put_found (reqBody : JVal) (store : BlobState) (now : Nat) (i : Nat)
    (hid : truthy (getField (jsOr reqBody (.obj [])) "id") = true)
    (hup : typeofIsObject (getField (jsOr reqBody (.obj [])) "updates") = true)
    (hfind : (readProductsFromBlob store).findIdx?
        (fun p => jStrictEq (getField p "id") (getField (jsOr reqBody (.obj [])) "id"))
      = some i) :
    handler "PUT" reqBody store now =
      ⟨200,
        jSpread ((readProductsFromBlob store).getD i .undefined)
          (getField (jsOr reqBody (.obj [])) "updates"),
        some ((readProductsFromBlob store).set i
          (jSpread ((readProductsFromBlob store).getD i .undefined)
            (getField (jsOr reqBody (.obj [])) "updates")))⟩ := by
  simp [handler, hid, hup, hfind]

/-- The DELETE branch on a body with a truthy `id`: filter, write, ack. -/
theorem handler_delete_valid (reqBody : JVal) (store : BlobState) (now : Nat)
    (hid : truthy (getField (jsOr reqBody (.obj [])) "id") = true) :
    handler "DELETE" reqBody store now =
      ⟨200, .obj [("ok", .bool true)],
        some ((readProductsFromBlob store).filter
          (fun p => !jStrictEq (getField p "id") (getField (jsOr reqBody (.obj [])) "id")))⟩ := by
  simp [handler, hid]

/-! ## Sample values used by witnesses -/

/-- A valid POST body. -/
def sampleBody : JVal :=
  .obj [("name", .str "Ring"), ("price", .num (.finite 5)), ("category", .str "rings")]

/-- A stored product record. -/
def sampleRecord : JVal :=
  .obj [("id", .str "1"), ("name", .str "A"), ("price", .num (.finite 3))]

/-- A blob store holding the one-record catalog `[sampleRecord]`. -/
def sampleStore : BlobState := .stored (.arr [sampleRecord])

/-! ## Claims -/

/-- C1: for every POST whose body supplies truthy `name`, `price` and
`category`, the handler returns 201 with a created record whose `id` is the
non-empty time-derived string `Date.now().toString()`, the written snapshot is
the previously read snapshot with exactly that record appended at the end, and
the record is present in a subsequent GET served from the written snapshot. -/
theorem post_valid_creates_record (reqBody : JVal) (store : BlobState) (now : Nat)
    (h1 : truthy (getField (jsOr reqBody (.obj [])) "name") = true)
    (h2 : truthy (getField (jsOr reqBody (.obj [])) "price") = true)
    (h3 : truthy (getField (jsOr reqBody (.obj [])) "category") = true) :
    (handler "POST" reqBody store now).status = 201 ∧
    getField (handler "POST" reqBody store now).body "id" = .str (Nat.repr now) ∧
    Nat.repr now ≠ "" ∧
    (handler "POST" reqBody store now).written =
      some (readProductsFromBlob store ++ [(handler "POST" reqBody store now).body]) ∧
    ∀ ws, (handler "POST" reqBody store now).written = some ws →
      (handler "GET" .undefined (.stored (.arr ws)) now).status = 200 ∧
      (handler "GET" .undefined (.stored (.arr ws)) now).body = .arr ws ∧
      (handler "POST" reqBody store now).body ∈ ws := by
  rw [handler_post_valid reqBody store now h1 h2 h3]
  refine ⟨rfl, rfl, repr_ne_empty now, rfl, ?_⟩
  intro ws hws
  obtain rfl := Option.some.inj hws
  exact ⟨rfl, rfl, List.mem_append_right _ (List.mem_singleton_self _)⟩

/-- Witness for C1 at a concrete valid POST against an empty store. -/
theorem post_valid_creates_record_witness :
    truthy (getField (jsOr sampleBody (.obj [])) "name") = true ∧
    (handler "POST" sampleBody .noMatch 1700000000000).status = 201 ∧
    (handler "POST" sampleBody .noMatch 1700000000000).written =
      some [(handler "POST" sampleBody .noMatch 1700000000000).body] :=
  ⟨rfl,
   (post_valid_creates_record sampleBody .noMatch 1700000000000 rfl rfl rfl).1,
   (post_valid_creates_record sampleBody .noMatch 1700000000000 rfl rfl rfl).2.2.2.1⟩

/-- C2: a POST whose body is missing (or supplies a falsy value for) any of
`name`, `price` or `category` yields status 400 with the validation error and
performs no write, leaving the stored catalog unchanged. -/
theorem post_missing_required_no_write (reqBody : JVal) (store : BlobState) (now : Nat)
    (h : truthy (getField (jsOr reqBody (.obj [])) "name") = false
       ∨ truthy (getField (jsOr reqBody (.obj [])) "price") = false
       ∨ truthy (getField (jsOr reqBody (.obj [])) "category") = false) :
    (handler "POST" reqBody store now).status = 400 ∧
    (handler "POST" reqBody store now).body = errorBody "Missing required fields" ∧
    (handler "POST" reqBody store now).written = none := by
  rcases h with h | h | h <;> simp [handler, h]

/-- Witness for C2: POST with no `name` field is rejected without a write. -/
theorem post_missing_required_no_write_witness :
    truthy (getField (jsOr (JVal.obj [("price", .num (.finite 1)), ("category", .str "c")])
      (.obj [])) "name") = false ∧
    (handler "POST" (.obj [("price", .num (.finite 1)), ("category", .str "c")])
      sampleStore 0).status = 400 ∧
    (handler "POST" (.obj [("price", .num (.finite 1)), ("category", .str "c")])
      sampleStore 0).written = none :=
  ⟨rfl,
   (post_missing_required_no_write (.obj [("price", .num (.finite 1)), ("category", .str "c")])
     sampleStore 0 (Or.inl rfl)).1,
   (post_missing_required_no_write (.obj [("price", .num (.finite 1)), ("category", .str "c")])
     sampleStore 0 (Or.inl rfl)).2.2⟩

/-- C6: reading the snapshot never fails — every blob state yields a catalog,
GET answers 200 with it and performs no write, any state that is not a stored
JSON array yields the empty catalog, and in particular GET with no stored blob
returns the empty array. -/
theorem get_never_fails (store : BlobState) :
    (handler "GET" .undefined store 0).status = 200 ∧
    (handler "GET" .undefined store 0).body = .arr (readProductsFromBlob store) ∧
    (handler "GET" .undefined store 0).written = none ∧
    ((∀ xs, store ≠ .stored (.arr xs)) → readProductsFromBlob store = []) ∧
    (handler "GET" .undefined .noMatch 0).body = .arr [] := by
  refine ⟨rfl, rfl, rfl, ?_, rfl⟩
  intro h
  cases store with
  | stored v => cases v <;> first | rfl | exact absurd rfl (h _)
  | listFailed => rfl
  | noMatch => rfl
  | notOk => rfl
  | bodyNotJson => rfl

/-- Witness for C6 at the state with no matching blob. -/
theorem get_never_fails_witness :
    (∀ xs, BlobState.noMatch ≠ BlobState.stored (.arr xs)) ∧
    readProductsFromBlob .noMatch = [] ∧
    (handler "GET" .undefined .noMatch 0).status = 200 :=
  ⟨fun _ h => BlobState.noConfusion h,
   (get_never_fails .noMatch).2.2.2.1 (fun _ h => BlobState.noConfusion h),
   (get_never_fails .noMatch).1⟩

/-- C7: a DELETE with a truthy `id` answers 200 with `{ok: true}` and writes
the prior snapshot with all records whose `id` strictly equals the given id
removed, the others kept in order; when no record matches, the written
snapshot equals the prior snapshot. -/
theorem delete_removes_matches (reqBody : JVal) (store : BlobState) (now : Nat)
    (hid : truthy (getField (jsOr reqBody (.obj [])) "id") = true) :
    (handler "DELETE" reqBody store now).status = 200 ∧
    (handler "DELETE" reqBody store now).body = .obj [("ok", .bool true)] ∧
    (handler "DELETE" reqBody store now).written =
      some ((readProductsFromBlob store).filter
        (fun p => !jStrictEq (getField p "id") (getField (jsOr reqBody (.obj [])) "id"))) ∧
    ((∀ p ∈ readProductsFromBlob store,
        jStrictEq (getField p "id") (getField (jsOr reqBody (.obj [])) "id") = false) →
      (handler "DELETE" reqBody store now).written = some (readProductsFromBlob store)) := by
  rw [handler_delete_valid reqBody store now hid]
  refine ⟨rfl, rfl, rfl, ?_⟩
  intro h
  have hfix : (readProductsFromBlob store).filter
      (fun p => !jStrictEq (getField p "id") (getField (jsOr reqBody (.obj [])) "id"))
      = readProductsFromBlob store :=
    List.filter_eq_self.mpr (fun p hp => by simp [h p hp])
  show some _ = some (readProductsFromBlob store)
  exact congrArg some hfix

/-- Witness for C7: DELETE of an id present in no record leaves the written
snapshot equal to the prior one. -/
theorem delete_removes_matches_witness :
    truthy (getField (jsOr (JVal.obj [("id", .str "9")]) (.obj [])) "id") = true ∧
    (handler "DELETE" (.obj [("id", .str "9")]) sampleStore 0).status = 200 ∧
    (handler "DELETE" (.obj [("id", .str "9")]) sampleStore 0).written =
      some (readProductsFromBlob sampleStore) :=
  ⟨rfl,
   (delete_removes_matches (.obj [("id", .str "9")]) sampleStore 0 rfl).1,
   (delete_removes_matches (.obj [("id", .str "9")]) sampleStore 0 rfl).2.2.2
     (fun p hp => by rw [List.mem_singleton.mp hp]; rfl)⟩

/-- C3: for every PUT whose body supplies a truthy `id` and an object-typed
`updates`, with the `id` located at index `i` of the snapshot, the handler
answers 200 with the shallow merge of the located record and `updates`: every
key `updates` binds takes the updated value, every key it does not bind keeps
the located record's prior value, every other position of the written
snapshot is unchanged, and the full updated snapshot is written. -/
theorem put_merges_shallow (reqBody : JVal) (store : BlobState) (now : Nat) (i : Nat)
    (hid : truthy (getField (jsOr reqBody (.obj [])) "id") = true)
    (hup : typeofIsObject (getField (jsOr reqBody (.obj [])) "updates") = true)
    (hfind : (readProductsFromBlob store).findIdx?
        (fun p => jStrictEq (getField p "id") (getField (jsOr reqBody (.obj [])) "id"))
      = some i) :
    (handler "PUT" reqBody store now).status = 200 ∧
    (handler "PUT" reqBody store now).body =
      jSpread ((readProductsFromBlob store).getD i .undefined)
        (getField (jsOr reqBody (.obj [])) "updates") ∧
    (handler "PUT" reqBody store now).written =
      some ((readProductsFromBlob store).set i (handler "PUT" reqBody store now).body) ∧
    (∀ j, j ≠ i →
      ((readProductsFromBlob store).set i (handler "PUT" reqBody store now).body)[j]? =
        (readProductsFromBlob store)[j]?) ∧
    (∀ k, k ∈ (fieldsOf (getField (jsOr reqBody (.obj [])) "updates")).map Prod.fst →
      getField (handler "PUT" reqBody store now).body k =
        (lookupLast (fieldsOf (getField (jsOr reqBody (.obj [])) "updates")) k).getD .undefined) ∧
    (∀ k, k ∉ (fieldsOf (getField (jsOr reqBody (.obj [])) "updates")).map Prod.fst →
      getField (handler "PUT" reqBody store now).body k =
        getField ((readProductsFromBlob store).getD i .undefined) k) := by
  obtain ⟨hlt, hpred, -⟩ := List.findIdx?_eq_some_iff_getElem.mp hfind
  have hgetd : (readProductsFromBlob store).getD i .undefined = (readProductsFromBlob store)[i] := by
    rw [List.getD_eq_getElem?_getD, List.getElem?_eq_getElem hlt]
    rfl
  obtain ⟨fs, hfs⟩ := found_record_isObj hid (by simpa using hpred)
  rw [handler_put_found reqBody store now i hid hup hfind]
  refine ⟨rfl, rfl, rfl, ?_, ?_, ?_⟩
  · intro j hj
    exact List.getElem?_set_ne (Ne.symm hj)
  · intro k hk
    exact getField_jSpread_mem hk
  · intro k hk
    show getField (jSpread ((readProductsFromBlob store).getD i .undefined) _) k = _
    rw [hgetd, hfs]
    exact getField_jSpread_not_mem hk

/-- Witness for C3 at a concrete PUT updating `price` only: the untouched
`name` field keeps its prior value. -/
theorem put_merges_shallow_witness :
    (readProductsFromBlob sampleStore).findIdx?
        (fun p => jStrictEq (getField p "id")
          (getField (jsOr (JVal.obj [("id", .str "1"),
            ("updates", .obj [("price", .num (.finite 9))])]) (.obj [])) "id")) = some 0 ∧
    (handler "PUT" (.obj [("id", .str "1"), ("updates", .obj [("price", .num (.finite 9))])])
      sampleStore 0).status = 200 ∧
    getField (handler "PUT" (.obj [("id", .str "1"),
      ("updates", .obj [("price", .num (.finite 9))])]) sampleStore 0).body "name" = .str "A" :=
  ⟨rfl,
   (put_merges_shallow (.obj [("id", .str "1"), ("updates", .obj [("price", .num (.finite 9))])])
     sampleStore 0 0 rfl rfl rfl).1,
   (put_merges_shallow (.obj [("id", .str "1"), ("updates", .obj [("price", .num (.finite 9))])])
     sampleStore 0 0 rfl rfl rfl).2.2.2.2.2 "name" (by decide)⟩

/-- C4: a PUT failing validation (no truthy `id`, or `updates` not of object
type) answers 400 and performs no write; a PUT passing validation whose `id`
matches no record answers 404 and performs no write. -/
theorem put_failures_no_write (reqBody : JVal) (store : BlobState) (now : Nat) :
    (¬ (truthy (getField (jsOr reqBody (.obj [])) "id") = true
        ∧ typeofIsObject (getField (jsOr reqBody (.obj [])) "updates") = true) →
      (handler "PUT" reqBody store now).status = 400 ∧
      (handler "PUT" reqBody store now).body = errorBody "id and updates are required" ∧
      (handler "PUT" reqBody store now).written = none) ∧
    (truthy (getField (jsOr reqBody (.obj [])) "id") = true →
      typeofIsObject (getField (jsOr reqBody (.obj [])) "updates") = true →
      (readProductsFromBlob store).findIdx?
        (fun p => jStrictEq (getField p "id") (getField (jsOr reqBody (.obj [])) "id")) = none →
      (handler "PUT" reqBody store now).status = 404 ∧
      (handler "PUT" reqBody store now).body = errorBody "Not found" ∧
      (handler "PUT" reqBody store now).written = none) := by
  constructor
  · intro h
    cases ha : truthy (getField (jsOr reqBody (.obj [])) "id") with
    | false => simp [handler, ha]
    | true =>
      cases hb : typeofIsObject (getField (jsOr reqBody (.obj [])) "updates") with
      | false => simp [handler, ha, hb]
      | true => exact absurd ⟨ha, hb⟩ h
  · intro ha hb hf
    simp [handler, ha, hb, hf]

/-- Witness for C4: a PUT with no `updates` object is rejected with 400, and a
PUT naming an absent id is rejected with 404; neither writes. -/
theorem put_failures_no_write_witness :
    (handler "PUT" (.obj [("id", .str "1")]) sampleStore 0).status = 400 ∧
    (handler "PUT" (.obj [("id", .str "1")]) sampleStore 0).written = none ∧
    (handler "PUT" (.obj [("id", .str "9"), ("updates", .obj [])]) sampleStore 0).status = 404 ∧
    (handler "PUT" (.obj [("id", .str "9"), ("updates", .obj [])]) sampleStore 0).written = none :=
  ⟨((put_failures_no_write (.obj [("id", .str "1")]) sampleStore 0).1
      (fun hc => by exact absurd hc.2 (by decide))).1,
   ((put_failures_no_write (.obj [("id", .str "1")]) sampleStore 0).1
      (fun hc => by exact absurd hc.2 (by decide))).2.2,
   ((put_failures_no_write (.obj [("id", .str "9"), ("updates", .obj [])]) sampleStore 0).2
      rfl rfl rfl).1,
   ((put_failures_no_write (.obj [("id", .str "9"), ("updates", .obj [])]) sampleStore 0).2
      rfl rfl rfl).2.2⟩

/-- C5 counterexample: a successful PUT (status 200) whose `updates` binds
`id` returns a merged record whose `id` is "2", different from the id "1" the
record was located by — the shallow merge lets `updates.id` overwrite the
identifier, so the id is not immutable. -/
theorem put_id_overwritten :
    (handler "PUT" (.obj [("id", .str "1"), ("updates", .obj [("id", .str "2")])])
      sampleStore 0).status = 200 ∧
    getField (handler "PUT" (.obj [("id", .str "1"), ("updates", .obj [("id", .str "2")])])
      sampleStore 0).body "id" = .str "2" ∧
    getField (jsOr (JVal.obj [("id", .str "1"), ("updates", .obj [("id", .str "2")])])
      (.obj [])) "id" = .str "1" ∧
    JVal.str "2" ≠ JVal.str "1" := by
  refine ⟨rfl, rfl, rfl, ?_⟩
  intro h
  injection h with h
  exact absurd h (by decide)

/-- C5 (amended): for every successful PUT whose `updates` does not bind the
key `"id"`, the merged record — as returned and as stored — keeps the located
record's `id`, which is strictly equal to the id it was located by. -/
theorem put_id_immutable_without_id_update (reqBody : JVal) (store : BlobState) (now : Nat)
    (i : Nat)
    (hid : truthy (getField (jsOr reqBody (.obj [])) "id") = true)
    (hup : typeofIsObject (getField (jsOr reqBody (.obj [])) "updates") = true)
    (hfind : (readProductsFromBlob store).findIdx?
        (fun p => jStrictEq (getField p "id") (getField (jsOr reqBody (.obj [])) "id"))
      = some i)
    (hnoid : "id" ∉ (fieldsOf (getField (jsOr reqBody (.obj [])) "updates")).map Prod.fst) :
    getField (handler "PUT" reqBody store now).body "id" =
      getField ((readProductsFromBlob store).getD i .undefined) "id" ∧
    jStrictEq (getField (handler "PUT" reqBody store now).body "id")
      (getField (jsOr reqBody (.obj [])) "id") = true ∧
    (handler "PUT" reqBody store now).written =
      some ((readProductsFromBlob store).set i (handler "PUT" reqBody store now).body) := by
  obtain ⟨hlt, hpred, -⟩ := List.findIdx?_eq_some_iff_getElem.mp hfind
  have hgetd : (readProductsFromBlob store).getD i .undefined = (readProductsFromBlob store)[i] := by
    rw [List.getD_eq_getElem?_getD, List.getElem?_eq_getElem hlt]
    rfl
  obtain ⟨fs, hfs⟩ := found_record_isObj hid (by simpa using hpred)
  rw [handler_put_found reqBody store now i hid hup hfind]
  have h1 : getField (jSpread ((readProductsFromBlob store).getD i .undefined)
      (getField (jsOr reqBody (.obj [])) "updates")) "id"
      = getField ((readProductsFromBlob store).getD i .undefined) "id" := by
    rw [hgetd, hfs]
    exact getField_jSpread_not_mem hnoid
  refine ⟨h1, ?_, rfl⟩
  rw [h1, hgetd]
  simpa using hpred

/-- Witness for C5 (amended) at a PUT updating only `price`. -/
theorem put_id_immutable_without_id_update_witness :
    "id" ∉ (fieldsOf (getField (jsOr (JVal.obj [("id", .str "1"),
        ("updates", .obj [("price", .num (.finite 9))])]) (.obj [])) "updates")).map Prod.fst ∧
    getField (handler "PUT" (.obj [("id", .str "1"),
        ("updates", .obj [("price", .num (.finite 9))])]) sampleStore 0).body "id" = .str "1" :=
  ⟨by decide,
   (put_id_immutable_without_id_update
     (.obj [("id", .str "1"), ("updates", .obj [("price", .num (.finite 9))])])
     sampleStore 0 0 rfl rfl rfl (by decide)).1⟩

/-- C8: for every accepted POST body, the created record's fields follow the
Data Model coercions: `price` is `Number(body.price)`; `offerPrice` is
`Number(body.offerPrice)` when truthy and `undefined` (no discount) otherwise;
`images` is kept exactly when it is an array and defaults to the empty array
otherwise; `stock` is the numeric value when it is a finite number and
defaults to 0 otherwise. -/
theorem post_coerces_fields (reqBody : JVal) (store : BlobState) (now : Nat)
    (h1 : truthy (getField (jsOr reqBody (.obj [])) "name") = true)
    (h2 : truthy (getField (jsOr reqBody (.obj [])) "price") = true)
    (h3 : truthy (getField (jsOr reqBody (.obj [])) "category") = true) :
    getField (handler "POST" reqBody store now).body "price"
      = .num (toNumber (getField (jsOr reqBody (.obj [])) "price")) ∧
    getField (handler "POST" reqBody store now).body "offerPrice"
      = (if truthy (getField (jsOr reqBody (.obj [])) "offerPrice")
         then .num (toNumber (getField (jsOr reqBody (.obj [])) "offerPrice"))
         else .undefined) ∧
    getField (handler "POST" reqBody store now).body "images"
      = (if isArray (getField (jsOr reqBody (.obj [])) "images")
         then getField (jsOr reqBody (.obj [])) "images" else .arr []) ∧
    getField (handler "POST" reqBody store now).body "stock"
      = (if isFiniteNumber (getField (jsOr reqBody (.obj [])) "stock")
         then .num (toNumber (getField (jsOr reqBody (.obj [])) "stock"))
         else .num (.finite 0)) ∧
    (isFiniteNumber (getField (jsOr reqBody (.obj [])) "stock") = false →
      getField (handler "POST" reqBody store now).body "stock" = .num (.finite 0)) := by
  rw [handler_post_valid reqBody store now h1 h2 h3]
  refine ⟨rfl, rfl, rfl, rfl, ?_⟩
  intro h
  have hmk : getField (mkNewProduct (jsOr reqBody (.obj [])) now) "stock"
      = (if isFiniteNumber (getField (jsOr reqBody (.obj [])) "stock")
         then .num (toNumber (getField (jsOr reqBody (.obj [])) "stock"))
         else .num (.finite 0)) := rfl
  show getField (mkNewProduct (jsOr reqBody (.obj [])) now) "stock" = _
  rw [hmk, h]
  simp

/-- Witness for C8: a POST whose `stock` is the string "7" — not a finite
number, since `Number.isFinite` does not coerce — stores stock 0. -/
theorem post_coerces_fields_witness :
    isFiniteNumber (getField (jsOr (JVal.obj [("name", .str "N"), ("price", .num (.finite 2)),
      ("category", .str "c"), ("stock", .str "7")]) (.obj [])) "stock") = false ∧
    getField (handler "POST" (.obj [("name", .str "N"), ("price", .num (.finite 2)),
      ("category", .str "c"), ("stock", .str "7")]) .noMatch 0).body "stock"
      = .num (.finite 0) :=
  ⟨rfl,
   (post_coerces_fields (.obj [("name", .str "N"), ("price", .num (.finite 2)),
     ("category", .str "c"), ("stock", .str "7")]) .noMatch 0 rfl rfl rfl).2.2.2.2 rfl⟩

/-- C9: `searchProducts` returns exactly the products whose lowercased
`name`, `description` or `category` contains the lowercased query as a
substring, in the same relative order as in `products` (the result is a
sublist); and when exactly one product matches, the result is exactly that
product. -/
theorem searchProducts_exact (products : List Product) (query : String) :
    List.Sublist (searchProducts products query) products ∧
    (∀ p, p ∈ searchProducts products query ↔
      p ∈ products ∧
       ((jsToLowerCase query).toList <:+: (jsToLowerCase p.name).toList
        ∨ (jsToLowerCase query).toList <:+: (jsToLowerCase p.description).toList
        ∨ (jsToLowerCase query).toList <:+: (jsToLowerCase p.category).toList)) ∧
    (products.countP (fun p =>
        jsIncludes (jsToLowerCase p.name) (jsToLowerCase query)
        || jsIncludes (jsToLowerCase p.description) (jsToLowerCase query)
        || jsIncludes (jsToLowerCase p.category) (jsToLowerCase query)) = 1 →
      ∃ p₀, p₀ ∈ products ∧ searchProducts products query = [p₀]) := by
  have hsp : searchProducts products query = products.filter (fun p =>
      jsIncludes (jsToLowerCase p.name) (jsToLowerCase query)
      || jsIncludes (jsToLowerCase p.description) (jsToLowerCase query)
      || jsIncludes (jsToLowerCase p.category) (jsToLowerCase query)) := rfl
  refine ⟨hsp ▸ List.filter_sublist products, ?_, ?_⟩
  · intro p
    rw [hsp, List.mem_filter]
    simp [jsIncludes, or_assoc]
  · intro hc
    rw [List.countP_eq_length_filter] at hc
    obtain ⟨p₀, hp⟩ := List.length_eq_one.mp hc
    refine ⟨p₀, ?_, hsp.trans hp⟩
    exact List.mem_of_mem_filter (hp ▸ List.mem_singleton_self p₀)

/-- Witness for C9: a query occurring only in the second product's
description returns exactly that product. -/
theorem searchProducts_exact_witness :
    ([⟨"1", "Silver Set", 2899, some 2299, [], "necklaces", "brilliant jewels", 5⟩,
      ⟨"3", "Korean Stud", 3299, none, [], "earrings", "ruby ring with accents", 3⟩]
        : List Product).countP (fun p =>
        jsIncludes (jsToLowerCase p.name) (jsToLowerCase "Ruby")
        || jsIncludes (jsToLowerCase p.description) (jsToLowerCase "Ruby")
        || jsIncludes (jsToLowerCase p.category) (jsToLowerCase "Ruby")) = 1 ∧
    ∃ p₀, p₀ ∈ ([⟨"1", "Silver Set", 2899, some 2299, [], "necklaces", "brilliant jewels", 5⟩,
      ⟨"3", "Korean Stud", 3299, none, [], "earrings", "ruby ring with accents", 3⟩]
        : List Product) ∧
      searchProducts [⟨"1", "Silver Set", 2899, some 2299, [], "necklaces", "brilliant jewels", 5⟩,
        ⟨"3", "Korean Stud", 3299, none, [], "earrings", "ruby ring with accents", 3⟩]
        "Ruby" = [p₀] :=
  ⟨by decide,
   (searchProducts_exact
     [⟨"1", "Silver Set", 2899, some 2299, [], "necklaces", "brilliant jewels", 5⟩,
      ⟨"3", "Korean Stud", 3299, none, [], "earrings", "ruby ring with accents", 3⟩]
     "Ruby").2.2 (by decide)⟩

/-- C10: the client's `updateProduct` is a per-id map preserving the shape of
the list: same length, each position either merged (when its id matches) or
identical, positions with a different id untouched, and when no product has
the given id the list is completely unchanged. -/
theorem updateProduct_per_id_map (id : String) (u : ProductUpdate) (products : List Product) :
    (updateProduct id u products).length = products.length ∧
    (∀ i : Nat, (updateProduct id u products)[i]? =
      (products[i]?).map (fun p => if p.id = id then applyUpdates p u else p)) ∧
    (∀ i : Nat, ∀ h : i < products.length, products[i].id ≠ id →
      (updateProduct id u products)[i]? = some products[i]) ∧
    ((∀ p ∈ products, p.id ≠ id) → updateProduct id u products = products) := by
  refine ⟨List.length_map products _, ?_, ?_, ?_⟩
  · intro i
    rw [updateProduct, List.getElem?_map]
    cases products[i]? with
    | none => rfl
    | some p => simp [beq_iff_eq]
  · intro i h hne
    rw [updateProduct, List.getElem?_map, List.getElem?_eq_getElem h]
    simp [beq_iff_eq, hne]
  · intro h
    rw [updateProduct]
    calc products.map (fun p => if p.id == id then applyUpdates p u else p)
        = products.map (fun p => p) :=
          List.map_congr_left (fun p hp => by simp [beq_iff_eq, h p hp])
      _ = products := List.map_id' products

/-- Witness for C10: updating an id matching no product leaves the list
unchanged. -/
theorem updateProduct_per_id_map_witness :
    (∀ p ∈ ([⟨"1", "A", 1, none, [], "c", "d", 0⟩] : List Product), p.id ≠ "9") ∧
    updateProduct "9" ⟨none, some "B", none, none, none, none, none, none⟩
      [⟨"1", "A", 1, none, [], "c", "d", 0⟩] = [⟨"1", "A", 1, none, [], "c", "d", 0⟩] :=
  ⟨by decide,
   (updateProduct_per_id_map "9" ⟨none, some "B", none, none, none, none, none, none⟩
     [⟨"1", "A", 1, none, [], "c", "d", 0⟩]).2.2.2 (by decide)⟩

end Nyrazarii
